import Mathlib

/-!
Verification of the country-metric comparison pipeline.

The source program is a single-file dashboard that loads a catalog of
metric-to-URL rows, fetches CSV datasets, resolves a country list, and
compares two countries on one metric.  The definitions below are a shallow
embedding of that pipeline: tables are lists of rows, missing numeric cells
are `Option.none`, numeric values are rationals, and each step of the
comparison block is a total Lean function whose branches mirror the source's
branches.  Library behaviour the source depends on (pandas `dropna`,
`read_csv`, `idxmax`, `sort_values`) is embedded with its documented
semantics: in particular `idxmax` on a column with no non-missing value
raises an exception, which the embedding records as a distinct
`unhandledException` outcome.
-/

namespace Comparison

/-- One data row of a fetched dataset: the `Entity` identifier, the `Year`,
and the remaining (value) columns as an association list from column name to
a possibly missing numeric cell. -/
structure Row where
  entity : String
  year : Int
  cells : List (String × Option ℚ)
deriving DecidableEq

/-- Look up a value column in a row; an absent column behaves like a missing
value. -/
def Row.get (r : Row) (c : String) : Option ℚ :=
  (r.cells.lookup c).join

/-- A fetched dataset: the full column-name list (as in `data.columns`,
including the identifier columns) and the rows. -/
structure Table where
  cols : List String
  rows : List Row
deriving DecidableEq

/-- Case-sensitive substring test on character lists, checking a match at the
head position. -/
def matchesAt : List Char → List Char → Bool
  | [], _ => true
  | _ :: _, [] => false
  | a :: as, b :: bs => a == b && matchesAt as bs

/-- Case-sensitive substring test on character lists at any position. -/
def hasSub (needle : List Char) : List Char → Bool
  | [] => matchesAt needle []
  | b :: bs => matchesAt needle (b :: bs) || hasSub needle bs

/-- Case-insensitive substring test, embedding the source's
`selected_metric.lower() in col.lower()`: both sides are lowered
character-wise before the substring search. -/
def strContainsCI (needle hay : String) : Bool :=
  hasSub (needle.toList.map Char.toLower) (hay.toList.map Char.toLower)

/-- Resolution of the value column, embedding the source: the first column
whose name contains the metric name case-insensitively; otherwise the first
column not in `["Entity", "Year", "Code"]`; otherwise no column at all. -/
def resolveColumn (cols : List String) (metric : String) : Option String :=
  match cols.filter (fun c => strContainsCI metric c) with
  | c :: _ => some c
  | [] =>
    match cols.filter (fun c => !(["Entity", "Year", "Code"].contains c)) with
    | c :: _ => some c
    | [] => none

/-- The rows of the table whose entity equals the given country, embedding
`data[data["Entity"] == country]`. -/
def partitionOf (t : Table) (country : String) : List Row :=
  t.rows.filter (fun r => r.entity == country)

/-- Maximum of a nonempty list given via head and tail. -/
def listMax (v : ℚ) (vs : List ℚ) : ℚ := vs.foldl max v

/-- Minimum of a nonempty list given via head and tail. -/
def listMin (v : ℚ) (vs : List ℚ) : ℚ := vs.foldl min v

/-- Maximum year over a row set, embedding `rows["Year"].max()`; the rows are
nonempty whenever the source evaluates this. -/
def maxYear (rows : List Row) : Int :=
  match rows.map (fun r => r.year) with
  | [] => 0
  | y :: ys => ys.foldl max y

/-- The "current" cell of a country: the value column's cell of the first row
carrying the maximum year, embedding
`rows[rows["Year"] == latest_year][col].values[0]`. -/
def currentValue (rows : List Row) (c : String) : Option ℚ :=
  match rows.find? (fun r => r.year == maxYear rows) with
  | some r => r.get c
  | none => none

/-- Per-country aggregate statistics of the value column. -/
structure Stats where
  max : ℚ
  min : ℚ
  mean : ℚ
  maxYear : Option Int
  minYear : Option Int
deriving DecidableEq

/-- Statistics over the non-missing values of a column, embedding the
`max / min / mean / idxmax / idxmin` block of the source.  pandas aggregates
skip missing values, `mean` divides by the count of non-missing values, and
`idxmax` / `idxmin` return the first row (in row order) attaining the
extremum.  When the column has no non-missing value at all, `idxmax` raises
an exception, embedded here as `none`. -/
def statsOf (rows : List Row) (c : String) : Option Stats :=
  match rows.filterMap (fun r => r.get c) with
  | [] => none
  | v :: vs =>
    some
      { max := listMax v vs
        min := listMin v vs
        mean := (v + vs.sum) / ((vs.length + 1 : ℕ) : ℚ)
        maxYear := (rows.find? (fun r => r.get c == some (listMax v vs))).map (fun r => r.year)
        minYear := (rows.find? (fun r => r.get c == some (listMin v vs))).map (fun r => r.year) }

/-- The sort key of an entity name: its list of Unicode code points, the
order in which Python compares strings. -/
def strKey (s : String) : List Nat := s.toList.map Char.toNat

/-- Strict lexicographic comparison of code-point lists. -/
def natListLTb : List Nat → List Nat → Bool
  | [], [] => false
  | [], _ :: _ => true
  | _ :: _, [] => false
  | a :: as, b :: bs => decide (a < b) || (decide (a = b) && natListLTb as bs)

/-- Order on combined rows: by entity name (code-point order), then by year,
embedding `sort_values(["Entity", "Year"])`. -/
def combKeyLE (x y : String × Int × Option ℚ) : Prop :=
  natListLTb (strKey x.1) (strKey y.1) = true ∨
    (strKey x.1 = strKey y.1 ∧ x.2.1 ≤ y.2.1)

instance combKeyLE.decRel : DecidableRel combKeyLE := fun x y => by
  unfold combKeyLE; infer_instance

/-- The combined raw view: both countries' rows projected to
(entity, year, value) and sorted by entity then year, embedding
`pd.concat([...]).sort_values(["Entity", "Year"])`.  No restriction to
non-missing values is applied. -/
def combinedRows (da db : List Row) (c : String) : List (String × Int × Option ℚ) :=
  List.insertionSort combKeyLE ((da ++ db).map (fun r => (r.entity, r.year, r.get c)))

/-- The successful output of a comparison. -/
structure ComparisonResult where
  metricColumn : String
  latestYearA : Int
  latestYearB : Int
  valueA : ℚ
  valueB : ℚ
  delta : ℚ
  statsA : Stats
  statsB : Stats
  combined : List (String × Int × Option ℚ)
deriving DecidableEq

/-- The handled per-comparison error messages of the source. -/
inductive CompareError
  | invalidFormat
  | noDataForCountry (country : String)
  | columnNotFound
  | missingCurrentValue
deriving DecidableEq

/-- A comparison either succeeds, reports a handled error message, or dies on
an unhandled exception (the all-missing `idxmax` case). -/
inductive CompareOutcome
  | ok (r : ComparisonResult)
  | err (e : CompareError)
  | unhandledException
deriving DecidableEq

/-- The comparison block of the source, as a function of the fetched table,
the two selected countries and the selected metric.  The branch order is the
source's: format check, empty-partition checks, column resolution, statistics
(which can raise), then the missing-current-value check. -/
def compare (t : Table) (country_a country_b metric : String) : CompareOutcome :=
  if "Entity" ∉ t.cols ∨ "Year" ∉ t.cols then .err .invalidFormat
  else if partitionOf t country_a = [] then .err (.noDataForCountry country_a)
  else if partitionOf t country_b = [] then .err (.noDataForCountry country_b)
  else
    match resolveColumn t.cols metric with
    | none => .err .columnNotFound
    | some mcol =>
      match statsOf (partitionOf t country_a) mcol, statsOf (partitionOf t country_b) mcol with
      | some sa, some sb =>
        match currentValue (partitionOf t country_a) mcol,
              currentValue (partitionOf t country_b) mcol with
        | some va, some vb =>
          .ok
            { metricColumn := mcol
              latestYearA := maxYear (partitionOf t country_a)
              latestYearB := maxYear (partitionOf t country_b)
              valueA := va
              valueB := vb
              delta := vb - va
              statsA := sa
              statsB := sb
              combined := combinedRows (partitionOf t country_a) (partitionOf t country_b) mcol }
        | _, _ => .err .missingCurrentValue
      | _, _ => .unhandledException

/-- The combined view of an outcome (empty for failures); a projection used
to state properties of the raw-data table. -/
def combinedOf : CompareOutcome → List (String × Int × Option ℚ)
  | .ok r => r.combined
  | _ => []

/-- One row of the metric catalog: the metric-name cell and the
source-link cell, each possibly missing. -/
structure CatalogRow where
  metric : Option String
  link : Option String
deriving DecidableEq

/-- The cleaning step of the catalog loader, embedding
`df.dropna(subset=["data link full column names"])`: pandas `dropna` removes
rows whose link cell is missing; an empty string is not missing. -/
def load_dataset (rows : List CatalogRow) : List CatalogRow :=
  rows.filter (fun r => r.link.isSome)

/-- A parsed CSV payload: the header columns and the raw data rows. -/
structure CsvTable where
  cols : List String
  rows : List (List String)
deriving DecidableEq

/-- Outcome of a fetch: a parsed table, an HTTP error, or a parse failure. -/
inductive FetchResult
  | table (t : CsvTable)
  | fetchError (status : Nat)
  | parseError
deriving DecidableEq

/-- The fetcher's response handling, embedding `fetch_country_data`: on
status 200 the body is parsed as CSV (pandas `read_csv` raises on a body with
no header line at all, reported by the source as a handled error, embedded as
`parseError`); on any other status the HTTP error is reported.  The body is
given as its list of lines. -/
def fetchParse (status : Nat) (body : List String) : FetchResult :=
  if status = 200 then
    match body with
    | [] => .parseError
    | header :: rest =>
      .table { cols := header.splitOn ",", rows := rest.map (fun line => line.splitOn ",") }
  else .fetchError status

/-- The fixed fallback country list of the source. -/
def FALLBACK_COUNTRIES : List String :=
  [ "United States", "China", "India", "Russia", "Germany"
  , "United Kingdom", "France", "Japan", "Brazil", "Canada"
  , "Australia", "Italy", "Spain", "Mexico", "South Korea"
  , "Indonesia", "Turkey", "Saudi Arabia", "Argentina", "South Africa" ]

/-- Whether a URL string strips to the empty string, embedding
`url.strip() == ""`. -/
def isBlank (s : String) : Bool :=
  s.toList.all (fun c => c.isWhitespace)

/-- Order on entity names by code points, the order Python's `sorted` uses on
strings. -/
def strLE (s t : String) : Prop :=
  natListLTb (strKey s) (strKey t) = true ∨ strKey s = strKey t

instance strLE.decRel : DecidableRel strLE := fun s t => by
  unfold strLE; infer_instance

/-- Sorted distinct entity names, embedding
`sorted(first_data["Entity"].unique().tolist())`. -/
def sortedDistinct (l : List String) : List String :=
  List.insertionSort strLE l.dedup

/-- A catalog URL the country-resolution loop passes over: blank, failing to
fetch, or fetching a table without an entity column. -/
def skipsEntry (fetch : String → Option Table) (u : String) : Prop :=
  isBlank u = true ∨ fetch u = none ∨ ∃ t, fetch u = some t ∧ "Entity" ∉ t.cols

/-- The country-resolution loop of the source: walk the catalog links in
order; skip blank links and failed fetches and tables without an entity
column; stop at the first table with an entity column, returning its sorted
distinct entities. -/
def countriesLoop (fetch : String → Option Table) : List String → List String
  | [] => []
  | u :: rest =>
    if isBlank u then countriesLoop fetch rest
    else
      match fetch u with
      | none => countriesLoop fetch rest
      | some t =>
        if "Entity" ∈ t.cols then sortedDistinct (t.rows.map (fun r => r.entity))
        else countriesLoop fetch rest

/-- Country resolution, embedding the source's loop plus its
`if not countries: countries = FALLBACK_COUNTRIES` fallback. -/
def resolve_countries (fetch : String → Option Table) (links : List String) : List String :=
  if countriesLoop fetch links = [] then FALLBACK_COUNTRIES
  else countriesLoop fetch links

/-- The table of the worked example: Wakanda with years 2000, 2010, 2020 and
values 100, 200, 150; Genovia with years 2005, 2015 and values 50, 80. -/
def exTable : Table :=
  { cols := ["Entity", "Year", "GDP per capita"]
    rows :=
      [ { entity := "Wakanda", year := 2000, cells := [("GDP per capita", some 100)] }
      , { entity := "Wakanda", year := 2010, cells := [("GDP per capita", some 200)] }
      , { entity := "Wakanda", year := 2020, cells := [("GDP per capita", some 150)] }
      , { entity := "Genovia", year := 2005, cells := [("GDP per capita", some 50)] }
      , { entity := "Genovia", year := 2015, cells := [("GDP per capita", some 80)] } ] }

/-- The expected output of the worked example. -/
def exResult : ComparisonResult :=
  { metricColumn := "GDP per capita"
    latestYearA := 2020
    latestYearB := 2015
    valueA := 150
    valueB := 80
    delta := -70
    statsA := { max := 200, min := 100, mean := 150, maxYear := some 2010, minYear := some 2000 }
    statsB := { max := 80, min := 50, mean := 65, maxYear := some 2015, minYear := some 2005 }
    combined :=
      [ ("Genovia", 2005, some 50)
      , ("Genovia", 2015, some 80)
      , ("Wakanda", 2000, some 100)
      , ("Wakanda", 2010, some 200)
      , ("Wakanda", 2020, some 150) ] }

/-- A table where country A has one missing-value row besides a valid latest
row: A at year 2000 has a missing value, A at 2020 has value 1, B at 2015 has
value 2. -/
def mixedTable : Table :=
  { cols := ["Entity", "Year", "m"]
    rows :=
      [ { entity := "A", year := 2000, cells := [("m", none)] }
      , { entity := "A", year := 2020, cells := [("m", some 1)] }
      , { entity := "B", year := 2015, cells := [("m", some 2)] } ] }

/-- A table where country A's latest year carries a missing value while an
earlier year has one: A has value 5 at 2000 and a missing value at 2010; B
has value 3 at 2005. -/
def staleTable : Table :=
  { cols := ["Entity", "Year", "m"]
    rows :=
      [ { entity := "A", year := 2000, cells := [("m", some 5)] }
      , { entity := "A", year := 2010, cells := [("m", none)] }
      , { entity := "B", year := 2005, cells := [("m", some 3)] } ] }

/-- A table with Entity and Year columns but no value column at all, and no
rows for country A. -/
def bareTable : Table :=
  { cols := ["Entity", "Year"]
    rows := [ { entity := "B", year := 2000, cells := [] } ] }

/-- A table where country A's rows exist but the value column is missing in
all of them: A at 2000 and 2010 with missing values; B at 2005 with value 1. -/
def allMissingTable : Table :=
  { cols := ["Entity", "Year", "m"]
    rows :=
      [ { entity := "A", year := 2000, cells := [("m", none)] }
      , { entity := "A", year := 2010, cells := [("m", none)] }
      , { entity := "B", year := 2005, cells := [("m", some 1)] } ] }

/-- A catalog row whose link cell holds the empty string. -/
def emptyLinkRow : CatalogRow :=
  { metric := some "gdp", link := some "" }

/-- A fetcher whose every URL yields a table that has an Entity column but no
rows. -/
def entityOnlyFetch : String → Option Table :=
  fun _ => some { cols := ["Entity", "Year"], rows := [] }

/-- A fetcher whose every URL fails. -/
def failFetch : String → Option Table :=
  fun _ => none

/-- A fetcher whose every URL yields the worked example table. -/
def exFetch : String → Option Table :=
  fun _ => some exTable

end Comparison

namespace Comparison

theorem natListLTb_trichotomy :
    ∀ a b : List Nat, natListLTb a b = true ∨ a = b ∨ natListLTb b a = true
  | [], [] => Or.inr (Or.inl rfl)
  | [], _ :: _ => Or.inl rfl
  | _ :: _, [] => Or.inr (Or.inr rfl)
  | a :: as, b :: bs => by
    rcases Nat.lt_trichotomy a b with h | h | h
    · exact Or.inl (by simp [natListLTb, h])
    · subst h
      rcases natListLTb_trichotomy as bs with h2 | h2 | h2
      · exact Or.inl (by simp [natListLTb, h2])
      · exact Or.inr (Or.inl (by rw [h2]))
      · exact Or.inr (Or.inr (by simp [natListLTb, h2]))
    · exact Or.inr (Or.inr (by simp [natListLTb, h]))

theorem natListLTb_trans :
    ∀ a b c : List Nat, natListLTb a b = true → natListLTb b c = true →
      natListLTb a c = true
  | [], _ :: _, _ :: _, _, _ => rfl
  | a :: as, b :: bs, c :: cs, hab, hbc => by
    simp only [natListLTb, Bool.or_eq_true, Bool.and_eq_true, decide_eq_true_eq] at *
    rcases hab with h1 | ⟨e1, t1⟩
    · rcases hbc with h2 | ⟨e2, _⟩
      · exact Or.inl (h1.trans h2)
      · exact Or.inl (e2 ▸ h1)
    · rcases hbc with h2 | ⟨e2, t2⟩
      · exact Or.inl (e1 ▸ h2)
      · exact Or.inr ⟨e1.trans e2, natListLTb_trans as bs cs t1 t2⟩

theorem combKeyLE_total : ∀ x y, combKeyLE x y ∨ combKeyLE y x := by
  intro x y
  rcases natListLTb_trichotomy (strKey x.1) (strKey y.1) with h | h | h
  · exact Or.inl (Or.inl h)
  · rcases le_total x.2.1 y.2.1 with h2 | h2
    · exact Or.inl (Or.inr ⟨h, h2⟩)
    · exact Or.inr (Or.inr ⟨h.symm, h2⟩)
  · exact Or.inr (Or.inl h)

theorem combKeyLE_transitive :
    ∀ x y z, combKeyLE x y → combKeyLE y z → combKeyLE x z := by
  intro x y z hxy hyz
  rcases hxy with h1 | ⟨e1, l1⟩
  · rcases hyz with h2 | ⟨e2, _⟩
    · exact Or.inl (natListLTb_trans _ _ _ h1 h2)
    · exact Or.inl (e2 ▸ h1)
  · rcases hyz with h2 | ⟨e2, l2⟩
    · exact Or.inl (e1 ▸ h2)
    · exact Or.inr ⟨e1.trans e2, l1.trans l2⟩

theorem combinedRows_sorted (da db : List Row) (c : String) :
    List.Sorted combKeyLE (combinedRows da db c) := by
  letI : IsTotal (String × Int × Option ℚ) combKeyLE := ⟨combKeyLE_total⟩
  letI : IsTrans (String × Int × Option ℚ) combKeyLE := ⟨combKeyLE_transitive⟩
  exact List.sorted_insertionSort combKeyLE _

theorem combinedRows_perm (da db : List Row) (c : String) :
    List.Perm (combinedRows da db c)
      ((da ++ db).map (fun r => (r.entity, r.year, r.get c))) :=
  List.perm_insertionSort combKeyLE _

theorem combinedRows_length (da db : List Row) (c : String) :
    (combinedRows da db c).length = da.length + db.length := by
  rw [combinedRows, List.length_insertionSort, List.length_map, List.length_append]

theorem filterHead_eq_find {α : Type} (p : α → Bool) (l : List α) :
    (l.filter p).head? = l.find? p := by
  induction l with
  | nil => rfl
  | cons a t ih =>
    by_cases h : p a = true
    · simp [List.filter_cons, h, List.find?_cons_of_pos]
    · rw [Bool.not_eq_true] at h
      simp [List.filter_cons, h, List.find?_cons_of_neg, ih]

section

attribute [local semireducible] Rat.add Rat.sub Rat.mul Rat.inv

/-- C1: on the worked example table, `compare` returns current value 150 at
year 2020 for Wakanda and 80 at year 2015 for Genovia, statistics
max 200 at 2010 / min 100 at 2000 / mean 150 for Wakanda and
max 80 at 2015 / min 50 at 2005 / mean 65 for Genovia, and delta
`current_b - current_a = -70`. -/
theorem c1_worked_example :
    compare exTable "Wakanda" "Genovia" "GDP per capita" = .ok exResult := by
  decide

end

/-- C3: the value column resolves to the first column containing the metric
name case-insensitively; failing that, to the first column outside
Entity/Year/Code; and resolution reports no column exactly when every column
both fails the substring test and is one of the reserved identifiers. -/
theorem c3_column_resolution :
    (∀ (cols : List String) (m : String),
        resolveColumn cols m =
          (cols.find? (fun c => strContainsCI m c)).orElse
            (fun _ => cols.find? (fun c => !(["Entity", "Year", "Code"].contains c)))) ∧
    (∀ (cols : List String) (m : String),
        resolveColumn cols m = none ↔
          ∀ c ∈ cols, strContainsCI m c = false ∧ c ∈ ["Entity", "Year", "Code"]) := by
  have hchar : ∀ (cols : List String) (m : String),
      resolveColumn cols m =
        (cols.find? (fun c => strContainsCI m c)).orElse
          (fun _ => cols.find? (fun c => !(["Entity", "Year", "Code"].contains c))) := by
    intro cols m
    simp only [resolveColumn]
    rw [← filterHead_eq_find, ← filterHead_eq_find]
    cases h1 : cols.filter (fun c => strContainsCI m c) with
    | cons c cs => rfl
    | nil =>
      cases h2 : cols.filter (fun c => !(["Entity", "Year", "Code"].contains c)) with
      | cons c cs => rfl
      | nil => rfl
  refine ⟨hchar, fun cols m => ?_⟩
  rw [hchar]
  constructor
  · intro hnone c hc
    cases hf1 : cols.find? (fun c => strContainsCI m c) with
    | some v => rw [hf1] at hnone; exact absurd hnone (by simp [Option.orElse])
    | none =>
      rw [hf1] at hnone
      cases hf2 : cols.find? (fun c => !(["Entity", "Year", "Code"].contains c)) with
      | some v => rw [hf2] at hnone; exact absurd hnone (by simp [Option.orElse])
      | none =>
        have h1 := List.find?_eq_none.mp hf1 c hc
        have h2 := List.find?_eq_none.mp hf2 c hc
        simp only [Bool.not_eq_true] at h1
        refine ⟨h1, ?_⟩
        rcases Bool.eq_false_or_eq_true (["Entity", "Year", "Code"].contains c) with hb | hb
        · exact List.elem_iff.mp hb
        · exact absurd (by rw [hb]; rfl) h2
  · intro hall
    have hf1 : cols.find? (fun c => strContainsCI m c) = none :=
      List.find?_eq_none.mpr (fun c hc => by simp [(hall c hc).1])
    have hf2 : cols.find? (fun c => !(["Entity", "Year", "Code"].contains c)) = none :=
      List.find?_eq_none.mpr (fun c hc => by
        have hb : ["Entity", "Year", "Code"].contains c = true :=
          List.elem_eq_true_of_mem (hall c hc).2
        simp only [hb]
        decide)
    rw [hf1, hf2]
    rfl

/-- C6: on a successful response, a body consisting of a header line alone
parses to a table with that header's columns and no rows, while a body with
no lines at all fails with a parse error. -/
theorem c6_empty_body (header : String) :
    fetchParse 200 [header] = .table { cols := header.splitOn ",", rows := [] } ∧
    fetchParse 200 [] = .parseError :=
  ⟨rfl, rfl⟩

/-- C7 counterexample: a catalog row whose link is the empty string survives
the loader's cleaning step, so the loaded entry set does not exclude
empty-string links. -/
theorem c7_counterexample :
    load_dataset [emptyLinkRow] = [emptyLinkRow] ∧ emptyLinkRow.link = some "" := by
  constructor <;> rfl

/-- C7 (amended): the loader keeps exactly the catalog rows whose source-link
cell is present; rows with a missing link are dropped, but a present link is
kept even when it is the empty string. -/
theorem c7_amended (rows : List CatalogRow) (r : CatalogRow) :
    r ∈ load_dataset rows ↔ r ∈ rows ∧ r.link ≠ none := by
  simp [load_dataset, List.mem_filter, Option.isSome_iff_ne_none]

theorem compare_ok_inversion (t : Table) (ca cb m : String) (r : ComparisonResult)
    (h : compare t ca cb m = .ok r) :
    resolveColumn t.cols m = some r.metricColumn ∧
    statsOf (partitionOf t ca) r.metricColumn = some r.statsA ∧
    statsOf (partitionOf t cb) r.metricColumn = some r.statsB ∧
    currentValue (partitionOf t ca) r.metricColumn = some r.valueA ∧
    currentValue (partitionOf t cb) r.metricColumn = some r.valueB ∧
    r.latestYearA = maxYear (partitionOf t ca) ∧
    r.latestYearB = maxYear (partitionOf t cb) ∧
    r.delta = r.valueB - r.valueA ∧
    r.combined = combinedRows (partitionOf t ca) (partitionOf t cb) r.metricColumn := by
  unfold compare at h
  split at h
  · exact absurd h (by simp)
  split at h
  · exact absurd h (by simp)
  split at h
  · exact absurd h (by simp)
  split at h
  · exact absurd h (by simp)
  rename_i mcol hcol
  split at h
  case _ sa sb hsa hsb =>
    split at h
    case _ va vb hva hvb =>
      cases h
      exact ⟨hcol, hsa, hsb, hva, hvb, rfl, rfl, rfl, rfl⟩
    case _ hmiss => exact absurd h (by simp)
  case _ hcr => exact absurd h (by simp)

theorem le_listMax : ∀ (vs : List ℚ) (v : ℚ), ∀ x ∈ v :: vs, x ≤ listMax v vs
  | [], v, x, hx => by
    simp only [List.mem_singleton] at hx
    simp [listMax, hx]
  | w :: ws, v, x, hx => by
    have hstep : listMax v (w :: ws) = listMax (max v w) ws := rfl
    rw [hstep]
    rcases List.mem_cons.mp hx with rfl | hx2
    · exact (le_max_left x w).trans (le_listMax ws (max x w) _ (List.mem_cons_self _ _))
    · rcases List.mem_cons.mp hx2 with rfl | hx3
      · exact (le_max_right v x).trans (le_listMax ws (max v x) _ (List.mem_cons_self _ _))
      · exact le_listMax ws (max v w) x (List.mem_cons_of_mem _ hx3)

theorem listMin_le : ∀ (vs : List ℚ) (v : ℚ), ∀ x ∈ v :: vs, listMin v vs ≤ x
  | [], v, x, hx => by
    simp only [List.mem_singleton] at hx
    simp [listMin, hx]
  | w :: ws, v, x, hx => by
    have hstep : listMin v (w :: ws) = listMin (min v w) ws := rfl
    rw [hstep]
    rcases List.mem_cons.mp hx with rfl | hx2
    · exact (listMin_le ws (min x w) _ (List.mem_cons_self _ _)).trans (min_le_left x w)
    · rcases List.mem_cons.mp hx2 with rfl | hx3
      · exact (listMin_le ws (min v x) _ (List.mem_cons_self _ _)).trans (min_le_right v x)
      · exact listMin_le ws (min v w) x (List.mem_cons_of_mem _ hx3)

theorem statsOf_bounds (rows : List Row) (c : String) (s : Stats)
    (h : statsOf rows c = some s) : s.min ≤ s.mean ∧ s.mean ≤ s.max := by
  unfold statsOf at h
  split at h
  · exact absurd h (by simp)
  rename_i v vs hvals
  cases h
  have hn : (0 : ℚ) < ((vs.length + 1 : ℕ) : ℚ) := by
    exact_mod_cast Nat.succ_pos vs.length
  have hsum_le : (v :: vs).sum ≤ (v :: vs).length • listMax v vs :=
    List.sum_le_card_nsmul _ _ (le_listMax vs v)
  have hle_sum : (v :: vs).length • listMin v vs ≤ (v :: vs).sum :=
    List.card_nsmul_le_sum _ _ (listMin_le vs v)
  rw [List.sum_cons, List.length_cons, nsmul_eq_mul] at hsum_le
  rw [List.sum_cons, List.length_cons, nsmul_eq_mul] at hle_sum
  constructor
  · rw [le_div_iff₀ hn]
    calc listMin v vs * ((vs.length + 1 : ℕ) : ℚ)
        = ((vs.length + 1 : ℕ) : ℚ) * listMin v vs := mul_comm _ _
      _ ≤ v + vs.sum := hle_sum
  · rw [div_le_iff₀ hn]
    calc v + vs.sum ≤ ((vs.length + 1 : ℕ) : ℚ) * listMax v vs := hsum_le
      _ = listMax v vs * ((vs.length + 1 : ℕ) : ℚ) := mul_comm _ _

/-- C2 (amended): the combined row set produced by a successful comparison
is the union of BOTH countries' (entity, year, value) rows — including rows
whose value is missing, which are not filtered out — sorted by (entity, year)
ascending, and its size equals the sum of the two countries' partition
sizes. -/
theorem c2_amended (t : Table) (ca cb m : String) (r : ComparisonResult)
    (h : compare t ca cb m = .ok r) :
    List.Sorted combKeyLE r.combined ∧
    List.Perm r.combined
      ((partitionOf t ca ++ partitionOf t cb).map
        (fun row => (row.entity, row.year, row.get r.metricColumn))) ∧
    r.combined.length = (partitionOf t ca).length + (partitionOf t cb).length := by
  obtain ⟨-, -, -, -, -, -, -, -, hcomb⟩ := compare_ok_inversion t ca cb m r h
  rw [hcomb]
  exact ⟨combinedRows_sorted _ _ _, combinedRows_perm _ _ _, combinedRows_length _ _ _⟩

/-- C9: the per-country statistics step of `compare` yields
max >= mean >= min over the non-missing values whenever at least one
non-missing value exists (that is, whenever the statistics are defined), and
consequently both countries' statistics in every successful comparison are so
ordered. -/
theorem c9_stats_ordering :
    (∀ (rows : List Row) (c : String) (s : Stats),
        statsOf rows c = some s → s.min ≤ s.mean ∧ s.mean ≤ s.max) ∧
    (∀ (t : Table) (ca cb m : String) (r : ComparisonResult),
        compare t ca cb m = .ok r →
          (r.statsA.min ≤ r.statsA.mean ∧ r.statsA.mean ≤ r.statsA.max) ∧
          (r.statsB.min ≤ r.statsB.mean ∧ r.statsB.mean ≤ r.statsB.max)) := by
  refine ⟨statsOf_bounds, fun t ca cb m r h => ?_⟩
  obtain ⟨-, hsa, hsb, -⟩ := compare_ok_inversion t ca cb m r h
  exact ⟨statsOf_bounds _ _ _ hsa, statsOf_bounds _ _ _ hsb⟩

section

attribute [local semireducible] Rat.add Rat.sub Rat.mul Rat.inv

/-- C2 counterexample: on `mixedTable`, the comparison succeeds and its
combined view contains country A's year-2000 row whose value is missing, and
has 3 rows, whereas the two countries have only 2 non-missing rows in total —
so the combined set is not restricted to non-missing rows and its size is not
the sum of the non-missing counts. -/
theorem c2_counterexample :
    ("A", (2000 : Int), (none : Option ℚ)) ∈ combinedOf (compare mixedTable "A" "B" "m") ∧
    (combinedOf (compare mixedTable "A" "B" "m")).length = 3 ∧
    ((partitionOf mixedTable "A").filterMap (fun row => row.get "m")).length +
      ((partitionOf mixedTable "B").filterMap (fun row => row.get "m")).length = 2 := by
  decide

theorem c2_amended_witness :
    List.Sorted combKeyLE exResult.combined ∧
    List.Perm exResult.combined
      ((partitionOf exTable "Wakanda" ++ partitionOf exTable "Genovia").map
        (fun row => (row.entity, row.year, row.get exResult.metricColumn))) ∧
    exResult.combined.length =
      (partitionOf exTable "Wakanda").length + (partitionOf exTable "Genovia").length :=
  c2_amended exTable "Wakanda" "Genovia" "GDP per capita" exResult (by decide)

theorem c9_witness :
    (exResult.statsA.min ≤ exResult.statsA.mean ∧
      exResult.statsA.mean ≤ exResult.statsA.max) ∧
    (exResult.statsB.min ≤ exResult.statsB.mean ∧
      exResult.statsB.mean ≤ exResult.statsB.max) :=
  c9_stats_ordering.2 exTable "Wakanda" "Genovia" "GDP per capita" exResult (by decide)

end

/-- C5: on a table with Entity and Year columns, an empty partition for the
first country reports `NoDataForCountry` for it, and an empty partition for
the second country (when the first is non-empty) reports it for the second —
before and regardless of value-column resolution, so this holds whether or
not any value column exists. -/
theorem c5_no_data_for_country (t : Table) (ca cb m : String)
    (hE : "Entity" ∈ t.cols) (hY : "Year" ∈ t.cols) :
    (partitionOf t ca = [] → compare t ca cb m = .err (.noDataForCountry ca)) ∧
    (partitionOf t ca ≠ [] → partitionOf t cb = [] →
      compare t ca cb m = .err (.noDataForCountry cb)) := by
  constructor
  · intro hca
    unfold compare
    rw [if_neg (by simp [hE, hY]), if_pos hca]
  · intro hca hcb
    unfold compare
    rw [if_neg (by simp [hE, hY]), if_neg hca, if_pos hcb]

theorem c5_witness :
    compare bareTable "A" "B" "anything" = .err (.noDataForCountry "A") :=
  (c5_no_data_for_country bareTable "A" "B" "anything" (by decide) (by decide)).1 (by decide)

/-- C4: in a comparison that reaches the current-value step, each country's
current value is the value-column cell of the first row (in row order)
carrying that country's maximum year; when either of those cells is missing
the comparison fails with `MissingCurrentValue` — no earlier non-missing
observation is substituted, although the glossary reads "most recent
non-missing observation" — and when both are present the comparison succeeds
with exactly those values and years. -/
theorem c4_current_value (t : Table) (ca cb m mcol : String) (sa sb : Stats) (ra rb : Row)
    (hE : "Entity" ∈ t.cols) (hY : "Year" ∈ t.cols)
    (hca : partitionOf t ca ≠ []) (hcb : partitionOf t cb ≠ [])
    (hcol : resolveColumn t.cols m = some mcol)
    (hsa : statsOf (partitionOf t ca) mcol = some sa)
    (hsb : statsOf (partitionOf t cb) mcol = some sb)
    (hra : (partitionOf t ca).find?
        (fun row => row.year == maxYear (partitionOf t ca)) = some ra)
    (hrb : (partitionOf t cb).find?
        (fun row => row.year == maxYear (partitionOf t cb)) = some rb) :
    ((ra.get mcol = none ∨ rb.get mcol = none) →
        compare t ca cb m = .err .missingCurrentValue) ∧
    (∀ va vb : ℚ, ra.get mcol = some va → rb.get mcol = some vb →
        compare t ca cb m = .ok
          { metricColumn := mcol
            latestYearA := maxYear (partitionOf t ca)
            latestYearB := maxYear (partitionOf t cb)
            valueA := va
            valueB := vb
            delta := vb - va
            statsA := sa
            statsB := sb
            combined := combinedRows (partitionOf t ca) (partitionOf t cb) mcol }) := by
  have hcva : currentValue (partitionOf t ca) mcol = ra.get mcol := by
    unfold currentValue; rw [hra]
  have hcvb : currentValue (partitionOf t cb) mcol = rb.get mcol := by
    unfold currentValue; rw [hrb]
  constructor
  · intro hmiss
    rcases hmiss with h | h
    · simp [compare, hE, hY, hca, hcb, hcol, hsa, hsb, hcva, hcvb, h]
    · cases hx : ra.get mcol with
      | none => simp [compare, hE, hY, hca, hcb, hcol, hsa, hsb, hcva, hcvb, hx]
      | some va => simp [compare, hE, hY, hca, hcb, hcol, hsa, hsb, hcva, hcvb, hx, h]
  · intro va vb hva hvb
    simp [compare, hE, hY, hca, hcb, hcol, hsa, hsb, hcva, hcvb, hva, hvb]

/-- C10: when a country's partition is non-empty but its resolved value
column holds no non-missing value at all, the statistics step (pandas
`idxmax` / `idxmin` over an all-missing column) raises, so the comparison
ends in an unhandled exception rather than any handled per-comparison
error. -/
theorem c10_stats_crash (t : Table) (ca cb m mcol : String)
    (hE : "Entity" ∈ t.cols) (hY : "Year" ∈ t.cols)
    (hca : partitionOf t ca ≠ []) (hcb : partitionOf t cb ≠ [])
    (hcol : resolveColumn t.cols m = some mcol)
    (hmiss : (partitionOf t ca).filterMap (fun row => row.get mcol) = [] ∨
        (partitionOf t cb).filterMap (fun row => row.get mcol) = []) :
    compare t ca cb m = .unhandledException := by
  rcases hmiss with h | h
  · have hsa : statsOf (partitionOf t ca) mcol = none := by simp [statsOf, h]
    cases hsb : statsOf (partitionOf t cb) mcol with
    | none => simp [compare, hE, hY, hca, hcb, hcol, hsa, hsb]
    | some sb => simp [compare, hE, hY, hca, hcb, hcol, hsa, hsb]
  · have hsb : statsOf (partitionOf t cb) mcol = none := by simp [statsOf, h]
    cases hsa : statsOf (partitionOf t ca) mcol with
    | none => simp [compare, hE, hY, hca, hcb, hcol, hsa, hsb]
    | some sa => simp [compare, hE, hY, hca, hcb, hcol, hsa, hsb]

theorem c10_witness :
    compare allMissingTable "A" "B" "m" = .unhandledException :=
  c10_stats_crash allMissingTable "A" "B" "m" "m"
    (by decide) (by decide) (by decide) (by decide) (by decide) (Or.inl (by decide))

section

attribute [local semireducible] Rat.add Rat.sub Rat.mul Rat.inv

theorem c4_witness :
    compare staleTable "A" "B" "m" = .err .missingCurrentValue :=
  (c4_current_value staleTable "A" "B" "m" "m"
      { max := 5, min := 5, mean := 5, maxYear := some 2000, minYear := some 2000 }
      { max := 3, min := 3, mean := 3, maxYear := some 2005, minYear := some 2005 }
      { entity := "A", year := 2010, cells := [("m", none)] }
      { entity := "B", year := 2005, cells := [("m", some 3)] }
      (by decide) (by decide) (by decide) (by decide) (by decide)
      (by decide) (by decide) (by decide) (by decide)).1 (Or.inl (by decide))

end

theorem countriesLoop_eq_nil (fetch : String → Option Table) :
    ∀ links : List String, (∀ u ∈ links, skipsEntry fetch u) →
      countriesLoop fetch links = []
  | [], _ => rfl
  | u :: rest, h => by
    have hu := h u (List.mem_cons_self u rest)
    have ih := countriesLoop_eq_nil fetch rest (fun v hv => h v (List.mem_cons_of_mem u hv))
    rcases hu with hb | hn | ⟨t, hf, hne⟩
    · simp [countriesLoop, hb, ih]
    · cases hb2 : isBlank u <;> simp [countriesLoop, hb2, hn, ih]
    · cases hb2 : isBlank u
      · simp [countriesLoop, hb2, hf, hne, ih]
      · simp [countriesLoop, hb2, ih]

theorem countriesLoop_first_success (fetch : String → Option Table) :
    ∀ (pre : List String) (u : String) (post : List String) (t : Table),
      (∀ v ∈ pre, skipsEntry fetch v) → isBlank u = false → fetch u = some t →
      "Entity" ∈ t.cols →
      countriesLoop fetch (pre ++ u :: post) =
        sortedDistinct (t.rows.map (fun r => r.entity))
  | [], u, post, t, _, hb, hf, hE => by
    simp [countriesLoop, hb, hf, hE]
  | v :: pre, u, post, t, h, hb, hf, hE => by
    have hv := h v (List.mem_cons_self v pre)
    have ih := countriesLoop_first_success fetch pre u post t
      (fun w hw => h w (List.mem_cons_of_mem v hw)) hb hf hE
    rcases hv with hb2 | hn | ⟨t2, hf2, hne⟩
    · simp [countriesLoop, hb2, ih]
    · cases hb3 : isBlank v <;> simp [countriesLoop, hb3, hn, ih]
    · cases hb3 : isBlank v
      · simp [countriesLoop, hb3, hf2, hne, ih]
      · simp [countriesLoop, hb3, ih]

/-- C8 (amended): the country resolver walks the catalog links in order,
skipping blank links, failed fetches and tables without an entity column; at
the first table with an entity column and at least one row it returns that
table's sorted distinct entity values; when every link is skipped — or the
first table with an entity column has no rows, so its entity set is empty —
it returns the fixed 20-entry fallback list rather than an error. -/
theorem c8_amended :
    (∀ (fetch : String → Option Table) (links : List String),
        (∀ u ∈ links, skipsEntry fetch u) →
        resolve_countries fetch links = FALLBACK_COUNTRIES) ∧
    (∀ (fetch : String → Option Table) (pre : List String) (u : String)
        (post : List String) (t : Table),
        (∀ v ∈ pre, skipsEntry fetch v) → isBlank u = false → fetch u = some t →
        "Entity" ∈ t.cols → t.rows ≠ [] →
        resolve_countries fetch (pre ++ u :: post) =
          sortedDistinct (t.rows.map (fun r => r.entity))) ∧
    (∀ (fetch : String → Option Table) (pre : List String) (u : String)
        (post : List String) (t : Table),
        (∀ v ∈ pre, skipsEntry fetch v) → isBlank u = false → fetch u = some t →
        "Entity" ∈ t.cols → t.rows = [] →
        resolve_countries fetch (pre ++ u :: post) = FALLBACK_COUNTRIES) ∧
    FALLBACK_COUNTRIES.length = 20 := by
  refine ⟨?_, ?_, ?_, rfl⟩
  · intro fetch links h
    unfold resolve_countries
    rw [countriesLoop_eq_nil fetch links h, if_pos rfl]
  · intro fetch pre u post t hpre hb hf hE hrows
    have hne : sortedDistinct (t.rows.map (fun r => r.entity)) ≠ [] := by
      intro hnil
      rw [sortedDistinct] at hnil
      have h0 : (t.rows.map (fun r => r.entity)).dedup.length = 0 := by
        rw [← List.length_insertionSort strLE (t.rows.map (fun r => r.entity)).dedup, hnil]
        rfl
      have h1 := List.length_eq_zero.mp h0
      have h2 := (List.dedup_eq_nil _).mp h1
      exact hrows (List.map_eq_nil_iff.mp h2)
    unfold resolve_countries
    rw [countriesLoop_first_success fetch pre u post t hpre hb hf hE, if_neg hne]
  · intro fetch pre u post t hpre hb hf hE hrows
    have hnil : sortedDistinct (t.rows.map (fun r => r.entity)) = [] := by
      rw [hrows]
      rfl
    unfold resolve_countries
    rw [countriesLoop_first_success fetch pre u post t hpre hb hf hE, hnil, if_pos rfl]

theorem c8_amended_witness :
    resolve_countries failFetch ["x"] = FALLBACK_COUNTRIES ∧
    resolve_countries exFetch ["y"] =
      sortedDistinct (exTable.rows.map (fun r => r.entity)) ∧
    resolve_countries entityOnlyFetch ["u"] = FALLBACK_COUNTRIES := by
  refine ⟨?_, ?_, ?_⟩
  · exact c8_amended.1 failFetch ["x"] (fun u hu => Or.inr (Or.inl rfl))
  · exact c8_amended.2.1 exFetch [] "y" [] exTable
      (fun v hv => absurd hv (List.not_mem_nil v)) rfl rfl (by decide) (by decide)
  · exact c8_amended.2.2.1 entityOnlyFetch [] "u" [] { cols := ["Entity", "Year"], rows := [] }
      (fun v hv => absurd hv (List.not_mem_nil v)) rfl rfl (by decide) rfl

/-- C8 counterexample: with a fetcher whose first link yields a table that
HAS an entity column but no rows, the resolver returns the fallback list,
not the (empty) sorted distinct entity set of that first table — so the
claim that the first entity-column table's entity set is always returned
fails. -/
theorem c8_counterexample :
    resolve_countries entityOnlyFetch ["u"] = FALLBACK_COUNTRIES ∧
    sortedDistinct (([] : List Row).map (fun r => r.entity)) = [] ∧
    FALLBACK_COUNTRIES ≠ [] := by
  refine ⟨by decide, rfl, by decide⟩

end Comparison
